import Mathlib

/-!
Verification of the batch repository-management workflow of github-cleaner.

The Python source (src/github_cleaner/core.py and src/github_cleaner/cli.py)
is shallowly embedded below.  The remote client is modelled as a function
from a repository full name to the outcome of a fetch: either a repository
snapshot or an exception.  Exceptions are split, as in the source, into the
API exception type (GithubException) and every other exception; each carries
its string representation, which the source inspects with substring tests.
Mutating API calls (set archived, delete) are tracked explicitly in a call
log so that claims about which mutations are issued can be stated.
-/

/-- Substring test on lists of characters: does the pattern occur
contiguously, matching at the current position? -/
def matchAt : List Char → List Char → Bool
  | _, [] => true
  | [], _ :: _ => false
  | c :: cs, p :: ps => (c = p) && matchAt cs ps

/-- Substring search on lists of characters (Python `in` on strings). -/
def findSub : List Char → List Char → Bool
  | [], pat => pat.isEmpty
  | c :: cs, pat => matchAt (c :: cs) pat || findSub cs pat

/-- Python `pat in s` substring containment. -/
def strContains (s pat : String) : Bool := findSub s.data pat.data

/-- Python str.strip with no argument: drop leading and trailing
whitespace characters. -/
def pyStrip (s : String) : String :=
  String.mk
    (((s.data.dropWhile Char.isWhitespace).reverse.dropWhile
      Char.isWhitespace).reverse)

/-- Python str.lower, character by character. -/
def pyLower (s : String) : String := String.mk (s.data.map Char.toLower)

/-- An exception, as the source distinguishes them: a GithubException (the
API error type) or any other exception, each with its message text. -/
inductive Exc where
  | github (msg : String)
  | other (msg : String)
deriving DecidableEq, Repr

/-- The fields of a remote repository snapshot that the workflow reads,
together with the outcome the remote API would give to a mutating call on
it (none = the call succeeds, some e = the call raises e). -/
structure Repo where
  full_name : String
  archived : Bool
  editOutcome : Option Exc
  deleteOutcome : Option Exc
deriving DecidableEq, Repr

/-- A client: what getRepository returns for each full name. -/
def Client := String → Except Exc Repo

/-- A mutating API call. -/
inductive MutCall where
  | setArchived (name : String) (b : Bool)
  | deleteRepo (name : String)
deriving DecidableEq, Repr

/-- core.py get_repository_status (lines 93-109). -/
def get_repository_status (client : Client) (repo_name : String) : String :=
  match client repo_name with
  | Except.ok repo => if repo.archived then "Already Archived" else "Active"
  | Except.error (Exc.github msg) =>
      if strContains msg "Not Found" then "Not Found"
      else if strContains (pyLower msg) "permission" || strContains msg "403" then
        "No Permission"
      else "Error"
  | Except.error (Exc.other _) => "Unknown"

/-- A repository name paired with its probed status (cli.py line 166). -/
structure RepoStatusRecord where
  name : String
  status : String
deriving DecidableEq, Repr

/-- core.py create_operation_preview_table, lines 124-135: the planned
action text for one status under the requested operation. -/
def planned_action (status operation : String) : String :=
  if operation = "delete" then
    if status ∈ ["Not Found", "No Permission", "Error"] then "CANNOT DELETE"
    else "DELETE (irreversible)"
  else
    if status = "Already Archived" then "NO CHANGE NEEDED"
    else if status ∈ ["Not Found", "No Permission", "Error"] then "CANNOT ARCHIVE"
    else "ARCHIVE (reversible)"

/-- core.py create_operation_preview_table, lines 138-143: the colour-coded
status cell. -/
def status_display (status : String) : String :=
  if status ∈ ["Not Found", "No Permission", "Error"] then
    "[red]" ++ status ++ "[/red]"
  else if status = "Already Archived" then "[dim]" ++ status ++ "[/dim]"
  else "[green]" ++ status ++ "[/green]"

/-- core.py create_operation_preview_table (lines 112-147), modelled as the
list of rows added to the table, in order. -/
def create_operation_preview_table (repo_statuses : List RepoStatusRecord)
    (operation : String) : List (String × String × String) :=
  repo_statuses.map (fun r =>
    (r.name, status_display r.status, planned_action r.status operation))

/-- One outcome record of the execute phase (core.py dict with keys
repo_name, operation, success, details). -/
structure OperationResult where
  repo_name : String
  operation : String
  success : Bool
  details : String
deriving DecidableEq, Repr

/-- core.py lines 227-248: the shared except blocks of
perform_repository_operation, mapping a caught exception to the details
text of the failure record. -/
def excDetails : Exc → String
  | Exc.github msg =>
      if strContains msg "Not Found" then "Repository not found or no access"
      else if strContains (pyLower msg) "permission" then "Insufficient permissions"
      else "GitHub error: " ++ msg
  | Exc.other msg => "Unexpected error: " ++ msg

/-- core.py perform_repository_operation (lines 189-249).  Returns the
result record together with the list of mutating API calls issued. -/
def perform_repository_operation (client : Client) (repo_name operation : String) :
    OperationResult × List MutCall :=
  match client repo_name with
  | Except.error e => (⟨repo_name, operation, false, excDetails e⟩, [])
  | Except.ok repo =>
      if operation = "archive" then
        if repo.archived then
          (⟨repo_name, operation, true, "Already archived"⟩, [])
        else
          match repo.editOutcome with
          | none =>
              (⟨repo_name, operation, true, "Successfully archived"⟩,
               [MutCall.setArchived repo_name true])
          | some e =>
              (⟨repo_name, operation, false, excDetails e⟩,
               [MutCall.setArchived repo_name true])
      else if operation = "delete" then
        match repo.deleteOutcome with
        | none =>
            (⟨repo_name, operation, true, "Successfully deleted"⟩,
             [MutCall.deleteRepo repo_name])
        | some e =>
            (⟨repo_name, operation, false, excDetails e⟩,
             [MutCall.deleteRepo repo_name])
      else
        (⟨repo_name, operation, false, "Unknown operation: " ++ operation⟩, [])

/-- Split a character stream into lines the way Python file iteration does:
each newline ends a line, and a final segment without a trailing newline is
still a line; empty input gives no lines. -/
def splitLinesAux : List Char → List Char → List (List Char)
  | acc, [] => if acc.isEmpty then [] else [acc.reverse]
  | acc, c :: rest =>
      if c = '\n' then acc.reverse :: splitLinesAux [] rest
      else splitLinesAux (c :: acc) rest

/-- Lines of a character stream. -/
def splitLines (cs : List Char) : List (List Char) := splitLinesAux [] cs

/-- core.py read_repository_list (lines 81-90), on the file content:
strip whitespace from each line and drop lines empty after stripping. -/
def read_repository_list (content : String) : List String :=
  ((splitLines content.data).map (fun l => pyStrip (String.mk l))).filter
    (fun s => s != "")

/-- core.py export_repositories (lines 74-78): the file content written,
one full name per line, each line newline-terminated. -/
def export_repositories (repos : List Repo) : String :=
  String.mk (List.flatten (repos.map (fun r => r.full_name.data ++ ['\n'])))

/-- core.py confirm_operation (lines 179-186), on the finite list of
responses the operator has typed so far: some b when a decisive response is
reached, none when every response so far was indecisive and the loop is
still re-prompting (the source loop has no retry bound). -/
def confirm_operation : List String → Option Bool
  | [] => none
  | r :: rest =>
      let resp := pyStrip (pyLower r)
      if resp ∈ ["yes", "y"] then some true
      else if resp ∈ ["no", "n", ""] then some false
      else confirm_operation rest

/-- cli.py manage, lines 174-183: the actionable subset, in input order. -/
def actionable_repos (repo_statuses : List RepoStatusRecord) (operation : String) :
    List String :=
  (repo_statuses.filter (fun r =>
    if operation = "archive" then
      !(["Already Archived", "Not Found", "No Permission", "Error"].contains r.status)
    else
      !(["Not Found", "No Permission", "Error"].contains r.status))).map
    (fun r => r.name)

/-- cli.py manage, lines 200-205: the execute loop over the repository
names, collecting the result records and the mutating calls issued. -/
def execute_results (client : Client) (repo_names : List String)
    (operation : String) : List OperationResult × List MutCall :=
  match repo_names with
  | [] => ([], [])
  | n :: rest =>
      let rm := perform_repository_operation client n operation
      let rms := execute_results client rest operation
      (rm.1 :: rms.1, rm.2 ++ rms.2)

/-- Terminal state of the manage workflow. -/
inductive ManageOutcome where
  | emptyList
  | blocked
  | cancelled
  | completed (results : List OperationResult)
deriving DecidableEq, Repr

/-- What one run of the manage workflow did. -/
structure ManageRun where
  outcome : ManageOutcome
  mutations : List MutCall
  gateInvoked : Bool
deriving DecidableEq, Repr

/-- cli.py manage (lines 142-228): read the list, probe each status,
classify the actionable subset, stop early on an empty list or an empty
actionable subset, ask for confirmation, and on confirmation execute over
the full original name list.  confirmAnswer is the decision the
confirmation gate eventually returns. -/
def manage (client : Client) (confirmAnswer : Bool) (content : String)
    (operation : String) : ManageRun :=
  let repo_names := read_repository_list content
  if repo_names.isEmpty then ⟨ManageOutcome.emptyList, [], false⟩
  else
    let repo_statuses :=
      repo_names.map (fun n => RepoStatusRecord.mk n (get_repository_status client n))
    let actionable := actionable_repos repo_statuses operation
    if actionable.isEmpty then ⟨ManageOutcome.blocked, [], false⟩
    else if confirmAnswer then
      let er := execute_results client repo_names operation
      ⟨ManageOutcome.completed er.1, er.2, true⟩
    else ⟨ManageOutcome.cancelled, [], true⟩

/-! Concrete clients and inputs used by witnesses and counterexamples. -/

/-- A client on which octo/a is active, octo/b is archived, and every other
name raises a non-API exception. -/
def cexClient : Client := fun n =>
  if n = "octo/a" then Except.ok ⟨"octo/a", false, none, none⟩
  else if n = "octo/b" then Except.ok ⟨"octo/b", true, none, none⟩
  else Except.error (Exc.other "boom")

/-- A two-line input file naming octo/a and octo/b. -/
def cexContent : String := "octo/a\nocto/b\n"

/-- A client on which every repository is already archived. -/
def wArchClient : Client := fun _ => Except.ok ⟨"o/r", true, none, none⟩

/-- A client on which every repository is active and mutable. -/
def wActiveClient : Client := fun _ => Except.ok ⟨"o/r", false, none, none⟩

/-- A client whose fetches raise the API not-found error. -/
def wNfClient : Client := fun _ => Except.error (Exc.github "404 Not Found")

/-- A client whose fetches raise an API permission error. -/
def wPermClient : Client := fun _ => Except.error (Exc.github "Permission denied to caller")

/-- Repositories used for the export round-trip witness. -/
def wRepos : List Repo :=
  [⟨"octo/a", false, none, none⟩, ⟨"  octo/b ", true, none, none⟩]

/-! Helper lemmas shared between claims. -/

/-- The result record of one execute-phase operation always carries the
requested repository name. -/
lemma perform_repo_name (client : Client) (n operation : String) :
    (perform_repository_operation client n operation).1.repo_name = n := by
  unfold perform_repository_operation
  rcases client n with e | repo
  · rfl
  · by_cases h1 : operation = "archive"
    · by_cases h2 : repo.archived
      · simp [h1, h2]
      · cases he : repo.editOutcome <;> simp [h1, h2, he]
    · by_cases h3 : operation = "delete"
      · cases hd : repo.deleteOutcome <;> simp [h1, h3, hd]
      · simp [h1, h3]

/-- The probe loop records exactly the given names, in order. -/
lemma statuses_names (client : Client) :
    ∀ l : List String,
      ((l.map (fun n => RepoStatusRecord.mk n (get_repository_status client n))).map
        (fun r => r.name)) = l
  | [] => rfl
  | a :: l => by simp [statuses_names client l]

/-- The preview table has one row per status record, whose first cell is
the record name, in order. -/
lemma preview_names (operation : String) :
    ∀ rs : List RepoStatusRecord,
      (create_operation_preview_table rs operation).map (fun row => row.1) =
        rs.map (fun r => r.name)
  | [] => rfl
  | a :: rs => by
      simp [create_operation_preview_table, preview_names operation rs]

/-- The execute loop visits exactly the given names, in order. -/
lemma execute_results_names (client : Client) (operation : String) :
    ∀ repo_names : List String,
      (execute_results client repo_names operation).1.map
        (fun r => r.repo_name) = repo_names
  | [] => rfl
  | n :: rest => by
      simp only [execute_results, List.map_cons, perform_repo_name,
        execute_results_names client operation rest]

/-- C2: archiving a repository whose fresh fetch (the getRepository call
inside the execute-phase operation itself) shows it already archived issues
no mutating call and returns success = true with details exactly
"Already archived"; re-running archive on an already-archived repository is
a read-only no-op. -/
theorem c2_archive_idempotent (client : Client) (repo_name : String) (repo : Repo)
    (hfetch : client repo_name = Except.ok repo) (harch : repo.archived = true) :
    perform_repository_operation client repo_name "archive" =
      (⟨repo_name, "archive", true, "Already archived"⟩, []) := by
  simp [perform_repository_operation, hfetch, harch]

/-- Witness for c2_archive_idempotent on a concrete archived repository. -/
theorem c2_archive_idempotent_witness :
    perform_repository_operation wArchClient "o/r" "archive" =
      (⟨"o/r", "archive", true, "Already archived"⟩, []) :=
  c2_archive_idempotent wArchClient "o/r" ⟨"o/r", true, none, none⟩ rfl rfl

/-- C3: the operation classifier is a pure total function of the
(status, operation) pair; over all 12 pairs it yields: for delete,
CANNOT DELETE on Not Found / No Permission / Error and DELETE on every
other status; for archive, NO CHANGE NEEDED on Already Archived,
CANNOT ARCHIVE on Not Found / No Permission / Error, and ARCHIVE on Active
and Unknown.  Determinism and totality hold because planned_action is an
ordinary function. -/
theorem c3_classifier_table :
    planned_action "Active" "delete" = "DELETE (irreversible)" ∧
    planned_action "Already Archived" "delete" = "DELETE (irreversible)" ∧
    planned_action "Unknown" "delete" = "DELETE (irreversible)" ∧
    planned_action "Not Found" "delete" = "CANNOT DELETE" ∧
    planned_action "No Permission" "delete" = "CANNOT DELETE" ∧
    planned_action "Error" "delete" = "CANNOT DELETE" ∧
    planned_action "Already Archived" "archive" = "NO CHANGE NEEDED" ∧
    planned_action "Not Found" "archive" = "CANNOT ARCHIVE" ∧
    planned_action "No Permission" "archive" = "CANNOT ARCHIVE" ∧
    planned_action "Error" "archive" = "CANNOT ARCHIVE" ∧
    planned_action "Active" "archive" = "ARCHIVE (reversible)" ∧
    planned_action "Unknown" "archive" = "ARCHIVE (reversible)" := by
  decide

/-- C4: the status prober is total (it is a function, so it never raises)
and maps every client outcome as the spec table states: a found repository
gives Already Archived or Active by its archived flag; an API error whose
text contains "Not Found" gives Not Found; otherwise an API error whose
lowered text contains "permission" or whose text contains "403" gives
No Permission; any other API error gives Error; any non-API exception
gives Unknown. -/
theorem c4_prober_total_mapping (client : Client) (repo_name : String) :
    (∀ repo, client repo_name = Except.ok repo → repo.archived = true →
      get_repository_status client repo_name = "Already Archived") ∧
    (∀ repo, client repo_name = Except.ok repo → repo.archived = false →
      get_repository_status client repo_name = "Active") ∧
    (∀ msg, client repo_name = Except.error (Exc.github msg) →
      strContains msg "Not Found" = true →
      get_repository_status client repo_name = "Not Found") ∧
    (∀ msg, client repo_name = Except.error (Exc.github msg) →
      strContains msg "Not Found" = false →
      (strContains (pyLower msg) "permission" || strContains msg "403") = true →
      get_repository_status client repo_name = "No Permission") ∧
    (∀ msg, client repo_name = Except.error (Exc.github msg) →
      strContains msg "Not Found" = false →
      (strContains (pyLower msg) "permission" || strContains msg "403") = false →
      get_repository_status client repo_name = "Error") ∧
    (∀ msg, client repo_name = Except.error (Exc.other msg) →
      get_repository_status client repo_name = "Unknown") := by
  refine ⟨?_, ?_, ?_, ?_, ?_, ?_⟩
  · intro repo h ha; simp [get_repository_status, h, ha]
  · intro repo h ha; simp [get_repository_status, h, ha]
  · intro msg h hnf; simp [get_repository_status, h, hnf]
  · intro msg h hnf hp; simp [get_repository_status, h, hnf, hp]
  · intro msg h hnf hp; simp [get_repository_status, h, hnf, hp]
  · intro msg h; simp [get_repository_status, h]

/-- Witness for c4_prober_total_mapping: a concrete API not-found error is
labelled Not Found. -/
theorem c4_prober_total_mapping_witness :
    get_repository_status wNfClient "octo/x" = "Not Found" :=
  (c4_prober_total_mapping wNfClient "octo/x").2.2.1 "404 Not Found" rfl (by decide)

/-- C5: the execute-phase operation is total (a function: no exception
propagates, an OperationResult is always returned), and whenever an
exception e is raised — at the fetch, at the archive mutation, or at the
delete mutation — the result has success = false and details mapped
exactly: API error text containing "Not Found" gives "Repository not found
or no access"; otherwise API error whose lowered text contains
"permission" gives "Insufficient permissions"; any other API error gives
"GitHub error: " followed by the text verbatim; any non-API exception
gives "Unexpected error: " followed by the text. -/
theorem c5_execute_error_mapping (client : Client) (repo_name operation : String) :
    ∀ e : Exc,
      (client repo_name = Except.error e ∨
       (∃ repo, client repo_name = Except.ok repo ∧ operation = "archive" ∧
         repo.archived = false ∧ repo.editOutcome = some e) ∨
       (∃ repo, client repo_name = Except.ok repo ∧ operation = "delete" ∧
         repo.deleteOutcome = some e)) →
      (perform_repository_operation client repo_name operation).1.success = false ∧
      (perform_repository_operation client repo_name operation).1.details =
        (match e with
         | Exc.github msg =>
             if strContains msg "Not Found" then "Repository not found or no access"
             else if strContains (pyLower msg) "permission" then
               "Insufficient permissions"
             else "GitHub error: " ++ msg
         | Exc.other msg => "Unexpected error: " ++ msg) := by
  intro e h
  have key : (perform_repository_operation client repo_name operation).1 =
      ⟨repo_name, operation, false, excDetails e⟩ := by
    rcases h with hfetch | ⟨repo, hr, hop, harch, hedit⟩ | ⟨repo, hr, hop, hdel⟩
    · simp [perform_repository_operation, hfetch]
    · subst hop; simp [perform_repository_operation, hr, harch, hedit]
    · subst hop; simp [perform_repository_operation, hr, hdel]
  rw [key]
  exact ⟨rfl, by cases e <;> rfl⟩

/-- Witness for c5_execute_error_mapping: a concrete API permission error
during an archive run yields a failure with details
"Insufficient permissions". -/
theorem c5_execute_error_mapping_witness :
    (perform_repository_operation wPermClient "o/r" "archive").1.success = false ∧
    (perform_repository_operation wPermClient "o/r" "archive").1.details =
      "Insufficient permissions" := by
  have h := c5_execute_error_mapping wPermClient "o/r" "archive"
    (Exc.github "Permission denied to caller") (Or.inl rfl)
  exact ⟨h.1, h.2.trans (by decide)⟩

/-- C10: for any operation string other than "archive" and "delete" the
execute-phase operation issues no mutating call, and when the initial
fetch succeeds it returns success = false with details exactly
"Unknown operation: " followed by the operation string. -/
theorem c10_unknown_operation (client : Client) (repo_name operation : String)
    (h1 : operation ≠ "archive") (h2 : operation ≠ "delete") :
    (perform_repository_operation client repo_name operation).2 = [] ∧
    (∀ repo, client repo_name = Except.ok repo →
      perform_repository_operation client repo_name operation =
        (⟨repo_name, operation, false, "Unknown operation: " ++ operation⟩, [])) := by
  constructor
  · rcases hc : client repo_name with e | repo
    · simp [perform_repository_operation, hc]
    · simp [perform_repository_operation, hc, h1, h2]
  · intro repo hr
    simp [perform_repository_operation, hr, h1, h2]

/-- Witness for c10_unknown_operation at the concrete operation "frobnicate". -/
theorem c10_unknown_operation_witness :
    perform_repository_operation wActiveClient "o/r" "frobnicate" =
      (⟨"o/r", "frobnicate", false, "Unknown operation: " ++ "frobnicate"⟩, []) :=
  (c10_unknown_operation wActiveClient "o/r" "frobnicate" (by decide) (by decide)).2
    ⟨"o/r", false, none, none⟩ rfl

/-- The concrete results of the counterexample run for the ordering claim. -/
def c1CexResults : List OperationResult :=
  [⟨"octo/a", "archive", true, "Successfully archived"⟩,
   ⟨"octo/b", "archive", true, "Already archived"⟩]

/-- C1 (counterexample to the claim as stated): an archive run over
octo/a (active) and octo/b (already archived) completes with an
OperationResult sequence of length 2 — the full input length — while the
classifier's actionable count is 1: the execute loop iterates the entire
original name list, so the results length equals N, not the actionable
count. -/
theorem c1_counterexample :
    (manage cexClient true cexContent "archive").outcome =
      ManageOutcome.completed c1CexResults ∧
    c1CexResults.length ≠
      (actionable_repos
        ((read_repository_list cexContent).map
          (fun n => RepoStatusRecord.mk n (get_repository_status cexClient n)))
        "archive").length := by
  decide

/-- C1 (amended): for every input list of N identifiers, the
RepoStatusRecord sequence, the preview rows, and the OperationResult
sequence all preserve the original order and all have length N — the
execute loop runs over the entire original list, so the results sequence
has length N rather than the actionable count. -/
theorem c1_ordering_lengths (client : Client) (repo_names : List String)
    (operation : String) :
    ((repo_names.map (fun n => RepoStatusRecord.mk n (get_repository_status client n))).map
        (fun r => r.name) = repo_names) ∧
    (repo_names.map (fun n => RepoStatusRecord.mk n (get_repository_status client n))).length
        = repo_names.length ∧
    ((create_operation_preview_table
        (repo_names.map (fun n => RepoStatusRecord.mk n (get_repository_status client n)))
        operation).map (fun row => row.1) = repo_names) ∧
    (create_operation_preview_table
        (repo_names.map (fun n => RepoStatusRecord.mk n (get_repository_status client n)))
        operation).length = repo_names.length ∧
    ((execute_results client repo_names operation).1.map
        (fun r => r.repo_name) = repo_names) ∧
    (execute_results client repo_names operation).1.length = repo_names.length := by
  have hexec := execute_results_names client operation repo_names
  refine ⟨statuses_names client repo_names, ?_, ?_, ?_, hexec, ?_⟩
  · simp
  · rw [preview_names operation, statuses_names client repo_names]
  · simp [create_operation_preview_table]
  · simpa using congrArg List.length hexec

/-- C6: whenever the confirmation gate answers no, the manage workflow
issues zero mutating calls, never reaches a completed state, and — if the
gate was actually reached — terminates cancelled. -/
theorem c6_decline_no_mutations (client : Client) (content operation : String) :
    (manage client false content operation).mutations = [] ∧
    (∀ rs, (manage client false content operation).outcome ≠
      ManageOutcome.completed rs) ∧
    ((manage client false content operation).gateInvoked = true →
      (manage client false content operation).outcome = ManageOutcome.cancelled) := by
  by_cases h1 : (read_repository_list content).isEmpty = true
  · have hm : manage client false content operation =
        ⟨ManageOutcome.emptyList, [], false⟩ := by
      simp only [manage]; rw [if_pos h1]
    rw [hm]
    refine ⟨rfl, fun rs h => ?_, fun h => ?_⟩
    · cases h
    · cases h
  · by_cases h2 : (actionable_repos
        ((read_repository_list content).map
          (fun n => RepoStatusRecord.mk n (get_repository_status client n)))
        operation).isEmpty = true
    · have hm : manage client false content operation =
          ⟨ManageOutcome.blocked, [], false⟩ := by
        simp only [manage]; rw [if_neg h1, if_pos h2]
      rw [hm]
      refine ⟨rfl, fun rs h => ?_, fun h => ?_⟩
      · cases h
      · cases h
    · have hm : manage client false content operation =
          ⟨ManageOutcome.cancelled, [], true⟩ := by
        simp only [manage]; rw [if_neg h1, if_neg h2, if_neg (by simp)]
      rw [hm]
      refine ⟨rfl, fun rs h => ?_, fun _ => rfl⟩
      cases h

/-- Witness for c6_decline_no_mutations on a run that reaches the gate:
one active repository, archive requested, operator declines. -/
theorem c6_decline_no_mutations_witness :
    (manage wActiveClient false "o/r\n" "archive").mutations = [] ∧
    (manage wActiveClient false "o/r\n" "archive").outcome =
      ManageOutcome.cancelled := by
  have h := c6_decline_no_mutations wActiveClient "o/r\n" "archive"
  exact ⟨h.1, h.2.2 (by decide)⟩

/-- C7: when the input list is non-empty but its classified actionable
subset is empty, the manage workflow terminates blocked right after the
preview: the confirmation gate is never invoked and no mutating call is
issued, for either possible gate answer. -/
theorem c7_no_actionable_blocked (client : Client) (confirmAnswer : Bool)
    (content operation : String)
    (hne : read_repository_list content ≠ [])
    (hnoact : actionable_repos
        ((read_repository_list content).map
          (fun n => RepoStatusRecord.mk n (get_repository_status client n)))
        operation = []) :
    manage client confirmAnswer content operation =
      ⟨ManageOutcome.blocked, [], false⟩ := by
  simp only [manage]
  rw [if_neg (by simp [hne]), if_pos (by simp [hnoact])]

/-- Witness for c7_no_actionable_blocked: archiving a one-line list whose
single repository is already archived. -/
theorem c7_no_actionable_blocked_witness :
    manage wArchClient true "o/r\n" "archive" =
      ⟨ManageOutcome.blocked, [], false⟩ :=
  c7_no_actionable_blocked wArchClient true "o/r\n" "archive" (by decide) (by decide)

/-- C8: on any finite sequence of operator responses, the confirmation
loop answers true exactly when the first decisive response (after
lower-casing and stripping) is "yes" or "y", answers false exactly when
it is "no", "n" or empty, and is still re-prompting (no answer yet) when
no response so far is decisive — the loop has no retry bound. -/
theorem c8_confirmation_gate (responses : List String) :
    confirm_operation responses =
      (responses.find? (fun r =>
        ["yes", "y", "no", "n", ""].contains (pyStrip (pyLower r)))).map
        (fun r => ["yes", "y"].contains (pyStrip (pyLower r))) := by
  induction responses with
  | nil => rfl
  | cons r rest ih =>
      by_cases hy : pyStrip (pyLower r) ∈ (["yes", "y"] : List String)
      · have hy2 : pyStrip (pyLower r) = "yes" ∨ pyStrip (pyLower r) = "y" := by
          simpa using hy
        rw [List.find?_cons_of_pos _ (by rcases hy2 with h | h <;> simp [h])]
        simp only [confirm_operation, Option.map_some]
        rw [if_pos hy]
        rcases hy2 with h | h <;> simp [h]
      · by_cases hn : pyStrip (pyLower r) ∈ (["no", "n", ""] : List String)
        · have hn2 : pyStrip (pyLower r) = "no" ∨ pyStrip (pyLower r) = "n" ∨
              pyStrip (pyLower r) = "" := by simpa using hn
          have hy1 : ¬(pyStrip (pyLower r) = "yes") := fun h => hy (by simp [h])
          have hy2 : ¬(pyStrip (pyLower r) = "y") := fun h => hy (by simp [h])
          rw [List.find?_cons_of_pos _ (by rcases hn2 with h | h | h <;> simp [h])]
          simp only [confirm_operation, Option.map_some]
          rw [if_neg hy, if_pos hn]
          simp [hy1, hy2]
        · have hall : ¬(pyStrip (pyLower r) = "yes" ∨ pyStrip (pyLower r) = "y" ∨
              pyStrip (pyLower r) = "no" ∨ pyStrip (pyLower r) = "n" ∨
              pyStrip (pyLower r) = "") := by
            intro h
            rcases h with h | h | h | h | h
            · exact hy (by simp [h])
            · exact hy (by simp [h])
            · exact hn (by simp [h])
            · exact hn (by simp [h])
            · exact hn (by simp [h])
          rw [List.find?_cons_of_neg _ (by simpa using hall)]
          simp only [confirm_operation]
          rw [if_neg hy, if_neg hn]
          exact ih

/-- Splitting a stream that starts with a newline-free segment followed by
a newline yields that segment as the first line. -/
lemma splitLinesAux_append (s : List Char) :
    ∀ acc rest : List Char, '\n' ∉ s →
      splitLinesAux acc (s ++ '\n' :: rest) =
        (acc.reverse ++ s) :: splitLines rest := by
  induction s with
  | nil =>
      intro acc rest _
      simp [splitLinesAux, splitLines]
  | cons c s ih =>
      intro acc rest h
      have hc : ¬(c = '\n') := fun hcc => h (by simp [hcc])
      have hs : '\n' ∉ s := fun hss => h (by simp [hss])
      simp only [List.cons_append, splitLinesAux, if_neg hc]
      rw [List.append_eq, ih (c :: acc) rest hs]
      simp

/-- C9: round-trip — exporting repositories whose full names are non-blank
after stripping and contain no newline, then reading the exported content
back, yields exactly the stripped full names in original order. -/
theorem c9_export_read_roundtrip (repos : List Repo)
    (h : ∀ r ∈ repos, pyStrip r.full_name ≠ "" ∧ '\n' ∉ r.full_name.data) :
    read_repository_list (export_repositories repos) =
      repos.map (fun r => pyStrip r.full_name) := by
  induction repos with
  | nil => rfl
  | cons r rest ih =>
      obtain ⟨hne, hnl⟩ := h r (List.mem_cons_self r rest)
      have hrest := ih (fun x hx => h x (List.mem_cons_of_mem r hx))
      have hdata : (export_repositories (r :: rest)).data =
          r.full_name.data ++ '\n' :: (export_repositories rest).data := by
        simp [export_repositories]
      unfold read_repository_list splitLines
      rw [hdata, splitLinesAux_append r.full_name.data [] (export_repositories rest).data hnl]
      simp only [List.reverse_nil, List.nil_append, List.map_cons, List.filter_cons]
      have hmk : pyStrip (String.mk r.full_name.data) = pyStrip r.full_name := rfl
      rw [hmk]
      have hkeep : (pyStrip r.full_name != "") = true := by
        simpa using hne
      rw [if_pos hkeep]
      unfold read_repository_list at hrest
      rw [hrest]

/-- Witness for c9_export_read_roundtrip on two concrete repositories, one
of whose full names carries surrounding whitespace. -/
theorem c9_export_read_roundtrip_witness :
    read_repository_list (export_repositories wRepos) =
      wRepos.map (fun r => pyStrip r.full_name) :=
  c9_export_read_roundtrip wRepos (by decide)
